import Mathlib

/-!
Verification of the task-dispatch patterns in `initial_concepts.py`.

The script's durations are Python numbers (the integers 10..1, the int
default 1, and the float 1.5); we embed them as rationals, which represent
every numeric literal of the source exactly.  Worker tasks are pure apart
from sleeping, so a task is embedded as a function from its duration to its
returned string (or to `Except` when failure matters).  Real time (the
sleeps themselves) is not modelled.
-/

/-- Python `str()` on the numeric values the script uses: integers render
with no decimal point, and one-decimal floats such as `1.5` render with a
single digit after the point.  (Durations with more decimal digits never
occur in the source.) -/
def pyStr (q : ℚ) : String :=
  if q.den = 1 then toString q.num
  else if (q * 10).den = 1 then
    toString ((q * 10).num / 10) ++ "." ++ toString ((q * 10).num % 10)
  else toString q

/-- Source function `do_something(seconds=1)` (src lines 13-16): sleeps, then returns the
string `'Done sleeping ... seconds.'` with the duration interpolated via
Python string formatting.  The sleep has no effect on the returned value. -/
def do_something (seconds : ℚ := 1) : String :=
  "Done sleeping " ++ pyStr seconds ++ " seconds."

/-- Source function `standard_calls()` (src lines 19-21): two plain calls of `do_something`
with no argument; we record the two results in call order. -/
def standard_calls : List String :=
  [do_something, do_something]

/-- A `multiprocessing.Process` as the script uses it: it is created with a
target (always `do_something` here) and an optional argument tuple (`none`
when no `args=` is passed, so the target runs with its default), and it can
be started and joined. -/
structure Process where
  args : Option ℚ
  started : Bool
  joined : Bool
deriving DecidableEq, Repr

/-- Constructor call `multiprocessing.Process(target=do_something, args=...)`. -/
def Process.create (args : Option ℚ) : Process :=
  { args := args, started := false, joined := false }

/-- Method `p.start()`. -/
def Process.start (p : Process) : Process :=
  { p with started := true }

/-- Method `p.join()`. -/
def Process.join (p : Process) : Process :=
  { p with joined := true }

/-- The duration a process's target actually sleeps: its argument when an
argument tuple was given, otherwise `do_something`'s default of 1. -/
def Process.duration (p : Process) : ℚ :=
  p.args.getD 1

/-- The string the process's target returns. -/
def Process.run (p : Process) : String :=
  match p.args with
  | none => do_something
  | some s => do_something s

/-- Source function `multi()` (src lines 24-33): create two processes with target
`do_something` and no argument tuple, start both, join both.  The value is
the final list of the two processes. -/
def multi : List Process :=
  let process_1 := Process.create none
  let process_2 := Process.create none
  let process_1 := process_1.start
  let process_2 := process_2.start
  let process_1 := process_1.join
  let process_2 := process_2.join
  [process_1, process_2]

/-- The tuple `seconds = (10, 9, 8, 7, 6, 5, 4, 3, 2, 1)` defined locally in
`multi_loop` (src line 38). -/
def multi_loop_seconds : List ℚ :=
  [10, 9, 8, 7, 6, 5, 4, 3, 2, 1]

/-- Source function `multi_loop()` (src lines 36-49): ten times, create a process with
`args=(1.5,)` and start it, collecting them in a list; then join each.  The
loop variable is `_` and the body passes the literal `1.5`, not an entry of
the `seconds` tuple.  The value is the final list of processes. -/
def multi_loop : List Process :=
  let processes :=
    (List.range 10).map (fun _ => (Process.create (some 1.5)).start)
  processes.map Process.join

instance {ε α : Type} [DecidableEq ε] [DecidableEq α] : DecidableEq (Except ε α) :=
  fun x y =>
    match x, y with
    | Except.ok a, Except.ok b =>
        if h : a = b then isTrue (by rw [h]) else isFalse (by simp [h])
    | Except.ok _, Except.error _ => isFalse (by simp)
    | Except.error _, Except.ok _ => isFalse (by simp)
    | Except.error e, Except.error f =>
        if h : e = f then isTrue (by rw [h]) else isFalse (by simp [h])

/-- A `concurrent.futures` future as returned by `submit()`: it records the
outcome of running the task in a worker — either the returned value or the
exception raised inside the worker.  The exception is only re-raised when
`result()` is called (src lines 69-70: "exceptions are raised when the
result is returned"), never at submission time. -/
structure Future (α : Type) where
  outcome : Except String α
deriving DecidableEq, Repr

/-- Method `future.result()`: the task's value, or the re-raised worker error. -/
def Future.result {α : Type} (f : Future α) : Except String α :=
  f.outcome

/-- Method `ppe.submit(task, arg)`: schedules the task and returns a future.
Submission itself always succeeds and returns a handle; a raising task only
shows in the handle's `result()`. -/
def submit {β α : Type} (task : β → Except String α) (arg : β) : Future α :=
  { outcome := task arg }

/-- Submitting one workload per element of a batch, in batch order, as the
list comprehension on src line 66 does. -/
def submit_batch {β α : Type} (task : β → Except String α) (workloads : List β) :
    List (Future α) :=
  workloads.map (fun w => submit task w)

/-- The function `do_something` as a worker task: it never raises, so its outcome is
always the returned string. -/
def do_something_task (seconds : ℚ) : Except String String :=
  Except.ok (do_something seconds)

/-- The list `second_list = [10, 9, 8, 7, 6, 5, 4, 3, 2, 1]` of
`multi_pool_loop` and `multi_pool_map` (src lines 63 and 78). -/
def second_list : List ℚ :=
  [10, 9, 8, 7, 6, 5, 4, 3, 2, 1]

/-- The futures submitted by `multi_pool_loop` (src line 66). -/
def multi_pool_loop_processes : List (Future String) :=
  submit_batch do_something_task second_list

/-- The result sequence of `multi_pool_loop`'s collection loop (src lines
68-71): `as_completed` yields each submitted future exactly once, in the
nondeterministic order the workers finish, and the loop calls `result()` on
each.  A completion order is any list `completed` that is a permutation of
the submitted futures; the collected sequence is its `result()` values. -/
def multi_pool_loop_run (completed : List (Future String)) :
    List (Except String String) :=
  completed.map Future.result

/-- Method `executor.map` (src line 80): the workers may finish in an arbitrary
order, but results are delivered in submission order.  `order` lists the
workload indices in the order the workers finish; `completed` accumulates
each finished workload's indexed result; the delivered sequence looks the
results up by submission index 0, 1, 2, ..., so a result produced early for
a late index waits until all earlier indices are consumed. -/
def ppe_map {β α : Type} (task : β → α) (xs : List β) (order : List Nat) :
    List α :=
  let completed := order.filterMap (fun i => (xs[i]?).map (fun x => (i, task x)))
  (List.range xs.length).filterMap
    (fun i => (completed.find? (fun p => p.1 == i)).map Prod.snd)

/-- The result sequence of `multi_pool_map` (src lines 77-85) under a given
completion order of the ten workers. -/
def multi_pool_map_run (order : List Nat) : List String :=
  ppe_map (fun second => do_something second) second_list order

/-- Modelled from the spec: the pool state of the external process-pool
collaborator (`concurrent.futures.ProcessPoolExecutor`, whose code is not
part of this repository).  Per spec section 6 it exposes `close(pool)`,
idempotent and blocking until all workers exit; we record the spawned
worker processes and whether the pool has been closed. -/
structure Pool where
  workers : List Process
  closed : Bool
deriving DecidableEq, Repr

/-- Modelled from the spec: `shutdown()` / `close(pool)` — joins every
spawned worker (the barrier: none is left unjoined) and marks the pool
closed. -/
def Pool.shutdown (pool : Pool) : Pool :=
  { workers := pool.workers.map Process.join, closed := true }

/-- Modelled from the spec: the `with ProcessPoolExecutor() as ppe:` block
(src lines 54, 64, 79).  The body either returns a value or raises; on
either exit path the pool is shut down before the block is left. -/
def with_pool {ε α : Type} (pool : Pool) (body : Pool → Except ε α) :
    Except ε α × Pool :=
  match body pool with
  | Except.ok a => (Except.ok a, pool.shutdown)
  | Except.error e => (Except.error e, pool.shutdown)

/-- A worker task that raises inside the worker for the duration-1 workload
and returns normally for every other workload (the spec's failing-workload
scenario). -/
def raising_task (seconds : ℚ) : Except String String :=
  if seconds = 1 then Except.error "ValueError" else Except.ok (do_something seconds)

/-! ### Helper lemmas about the executor model -/

/-- Looking every index of a list up in submission order recovers the list. -/
theorem filterMap_range_getElem {β α : Type} (task : β → α) :
    ∀ xs : List β,
      (List.range xs.length).filterMap (fun j => (xs[j]?).map task) = xs.map task
  | [] => by simp
  | x :: t => by
    rw [List.length_cons, List.range_succ_eq_map, List.filterMap_cons]
    simp only [List.getElem?_cons_zero, Option.map_some']
    rw [List.filterMap_map]
    have hcomp :
        ((fun j => (((x :: t)[j]?).map task)) ∘ Nat.succ) =
          fun j => ((t[j]?).map task) := by
      funext j
      simp
    rw [hcomp, filterMap_range_getElem task t]
    simp

/-- When the completion order is a permutation of the submission indices,
the buffer of completed results holds exactly one entry per index `j`, and
the in-order lookup finds that entry: index `j`'s own result. -/
theorem ppe_map_find {β α : Type} (task : β → α) (xs : List β) (order : List Nat)
    (h : order.Perm (List.range xs.length)) (j : Nat) (hj : j < xs.length) :
    (order.filterMap (fun i => (xs[i]?).map (fun x => (i, task x)))).find?
        (fun p => p.1 == j) = some (j, task xs[j]) := by
  have hjo : j ∈ order := h.mem_iff.mpr (List.mem_range.mpr hj)
  have hget : xs[j]? = some xs[j] := List.getElem?_eq_getElem hj
  have hmem : (j, task xs[j]) ∈
      order.filterMap (fun i => (xs[i]?).map (fun x => (i, task x))) :=
    List.mem_filterMap.mpr ⟨j, hjo, by rw [hget]; rfl⟩
  have hsome :
      ((order.filterMap (fun i => (xs[i]?).map (fun x => (i, task x)))).find?
        (fun p => p.1 == j)).isSome :=
    List.find?_isSome.mpr ⟨_, hmem, by simp⟩
  obtain ⟨p, hp⟩ := Option.isSome_iff_exists.mp hsome
  have hpj : p.1 = j := by simpa using List.find?_some hp
  obtain ⟨i, _, hfi⟩ := List.mem_filterMap.mp (List.mem_of_find?_eq_some hp)
  cases hxi : xs[i]? with
  | none => rw [hxi] at hfi; simp at hfi
  | some x =>
    rw [hxi] at hfi
    have hpix : p = (i, task x) := by
      simpa using hfi.symm
    have hij : i = j := by rw [hpix] at hpj; exact hpj
    subst hij
    rw [hget] at hxi
    have hx : x = xs[i] := by
      injection hxi with hx
      exact hx.symm
    rw [hp, hpix, hx]

/-- Lemma: `executor.map` delivers exactly the submission-order results, whatever
order the workers finish in. -/
theorem ppe_map_eq_map {β α : Type} (task : β → α) (xs : List β) (order : List Nat)
    (h : order.Perm (List.range xs.length)) :
    ppe_map task xs order = xs.map task := by
  unfold ppe_map
  have hcongr :
      (List.range xs.length).filterMap
          (fun i =>
            ((order.filterMap (fun i => (xs[i]?).map (fun x => (i, task x)))).find?
              (fun p => p.1 == i)).map Prod.snd) =
        (List.range xs.length).filterMap (fun j => (xs[j]?).map task) := by
    apply List.filterMap_congr
    intro i hi
    have hi' : i < xs.length := List.mem_range.mp hi
    rw [ppe_map_find task xs order h i hi', List.getElem?_eq_getElem hi']
    rfl
  rw [hcongr, filterMap_range_getElem]

/-- Retrieving the results of a submitted batch, handle by handle, gives
exactly the task's outcome on each workload. -/
theorem submit_batch_results {β α : Type} (task : β → Except String α)
    (workloads : List β) :
    (submit_batch task workloads).map Future.result = workloads.map task := by
  simp [submit_batch, submit, Future.result, List.map_map]

/-! ### The claims -/

/-- Claim C1: for every duration `s`, `do_something` returns exactly the
string `'Done sleeping ' + str(s) + ' seconds.'`; at the workloads 3, 1 and
2 the results are the three literal strings of the spec's scenario. -/
theorem c1_do_something_result :
    (∀ s : ℚ, do_something s = "Done sleeping " ++ pyStr s ++ " seconds.") ∧
    do_something 3 = "Done sleeping 3 seconds." ∧
    do_something 1 = "Done sleeping 1 seconds." ∧
    do_something 2 = "Done sleeping 2 seconds." := by
  refine ⟨fun s => rfl, ?_, ?_, ?_⟩ <;> rfl

/-- Claim C9: calling `do_something` with no argument uses the default
duration 1, so it returns `'Done sleeping 1 seconds.'`; the no-argument
demonstrations `standard_calls` and `multi` each run two workloads of
duration 1. -/
theorem c9_default_duration_one :
    standard_calls = [do_something 1, do_something 1] ∧
    standard_calls = ["Done sleeping 1 seconds.", "Done sleeping 1 seconds."] ∧
    multi.map Process.duration = [1, 1] ∧
    multi.map Process.run = ["Done sleeping 1 seconds.", "Done sleeping 1 seconds."] := by
  exact ⟨rfl, rfl, rfl, rfl⟩

/-- Claim C10: `multi_loop` passes the literal `1.5` to all 10 processes;
the locally defined `seconds` tuple is never read, so the batch is 10
homogeneous 1.5-second workloads, not the varying durations of the tuple. -/
theorem c10_multi_loop_homogeneous :
    multi_loop.map Process.args = List.replicate 10 (some 1.5) ∧
    multi_loop.map Process.duration = List.replicate 10 1.5 ∧
    multi_loop.map Process.args ≠ multi_loop_seconds.map some := by
  refine ⟨rfl, rfl, ?_⟩
  intro h
  have h0 := congrArg (fun l => l[0]?) h
  simp [multi_loop, multi_loop_seconds, Process.create, Process.start,
    Process.join] at h0
  norm_num at h0

/-- Claim C2: the map-based mode collects results strictly in submission
order for every non-empty workload sequence, whatever order the workers
finish in; in particular `multi_pool_map` always yields the result for 10
first and for 1 last. -/
theorem c2_in_order_collection :
    (∀ (xs : List ℚ) (order : List Nat), xs ≠ [] →
        order.Perm (List.range xs.length) →
        ppe_map (fun second => do_something second) xs order =
          xs.map (fun second => do_something second)) ∧
    (∀ order : List Nat, order.Perm (List.range 10) →
        multi_pool_map_run order =
          ["Done sleeping 10 seconds.", "Done sleeping 9 seconds.",
           "Done sleeping 8 seconds.", "Done sleeping 7 seconds.",
           "Done sleeping 6 seconds.", "Done sleeping 5 seconds.",
           "Done sleeping 4 seconds.", "Done sleeping 3 seconds.",
           "Done sleeping 2 seconds.", "Done sleeping 1 seconds."]) := by
  constructor
  · intro xs order _ horder
    exact ppe_map_eq_map _ xs order horder
  · intro order horder
    rw [multi_pool_map_run, ppe_map_eq_map _ second_list order horder]
    rfl

/-- Witness for C2: with the completion order reversed (the 1-second worker
at index 9 finishing first, the 10-second worker at index 0 last), the
delivered sequence is still the submission-order one. -/
theorem c2_in_order_collection_witness :
    multi_pool_map_run [9, 8, 7, 6, 5, 4, 3, 2, 1, 0] =
      ["Done sleeping 10 seconds.", "Done sleeping 9 seconds.",
       "Done sleeping 8 seconds.", "Done sleeping 7 seconds.",
       "Done sleeping 6 seconds.", "Done sleeping 5 seconds.",
       "Done sleeping 4 seconds.", "Done sleeping 3 seconds.",
       "Done sleeping 2 seconds.", "Done sleeping 1 seconds."] :=
  c2_in_order_collection.2 [9, 8, 7, 6, 5, 4, 3, 2, 1, 0] (by decide)

/-- Claim C3: for every non-empty batch, both collection modes deliver
exactly as many results as workloads were submitted — no result is lost and
none is delivered twice. -/
theorem c3_no_loss_no_duplication :
    ∀ xs : List ℚ, xs ≠ [] →
      (∀ completed : List (Future String),
          completed.Perm (submit_batch do_something_task xs) →
          (multi_pool_loop_run completed).length = xs.length) ∧
      (∀ order : List Nat, order.Perm (List.range xs.length) →
          (ppe_map (fun second => do_something second) xs order).length =
            xs.length) := by
  intro xs _
  constructor
  · intro completed hperm
    rw [multi_pool_loop_run, List.length_map, hperm.length_eq, submit_batch,
      List.length_map]
  · intro order horder
    rw [ppe_map_eq_map _ _ _ horder, List.length_map]

/-- Witness for C3 at the batch `[3, 1, 2]`, with the as-completed mode
finishing in reverse order and the in-order mode completing as 2, 3, 1. -/
theorem c3_no_loss_no_duplication_witness :
    (multi_pool_loop_run (submit_batch do_something_task [3, 1, 2]).reverse).length
        = 3 ∧
    (ppe_map (fun second => do_something second) [3, 1, 2] [2, 0, 1]).length = 3 := by
  have h := c3_no_loss_no_duplication [3, 1, 2] (by decide)
  exact ⟨h.1 _ (List.reverse_perm _), h.2 [2, 0, 1] (by decide)⟩

/-- Claim C4: whatever order the workers finish in, the as-completed
result sequence is a permutation of the in-order one — the two collection
modes deliver the same multiset of results. -/
theorem c4_two_modes_same_multiset :
    ∀ (xs : List ℚ) (completed : List (Future String)) (order : List Nat),
      completed.Perm (submit_batch do_something_task xs) →
      order.Perm (List.range xs.length) →
      (multi_pool_loop_run completed).Perm
        ((ppe_map (fun second => do_something second) xs order).map Except.ok) := by
  intro xs completed order hc horder
  rw [ppe_map_eq_map _ _ _ horder, multi_pool_loop_run]
  have h1 : (completed.map Future.result).Perm
      ((submit_batch do_something_task xs).map Future.result) := hc.map _
  rw [submit_batch_results] at h1
  rw [List.map_map]
  exact h1

/-- Witness for C4 at the batch `[3, 1, 2]` with a reversed as-completed
order and an in-order run whose workers finish as 2, 3, 1. -/
theorem c4_two_modes_same_multiset_witness :
    (multi_pool_loop_run (submit_batch do_something_task [3, 1, 2]).reverse).Perm
      ((ppe_map (fun second => do_something second) [3, 1, 2] [2, 0, 1]).map
        Except.ok) :=
  c4_two_modes_same_multiset [3, 1, 2] _ [2, 0, 1] (List.reverse_perm _) (by decide)

/-- Claim C5: submission always yields one handle per workload, even when a
task raises; each handle's `result()` is exactly the task's outcome on that
handle's own workload, so a worker error surfaces exactly when that result
is retrieved, and every other handle's result is unaffected. -/
theorem c5_errors_deferred_to_result :
    ∀ (task : ℚ → Except String String) (workloads : List ℚ),
      (submit_batch task workloads).length = workloads.length ∧
      ∀ (i : Nat) (w : ℚ), workloads[i]? = some w →
        ((submit_batch task workloads)[i]?).map Future.result = some (task w) := by
  intro task workloads
  constructor
  · rw [submit_batch, List.length_map]
  · intro i w hw
    rw [submit_batch, List.getElem?_map, hw]
    rfl

/-- Witness for C5: submitting `[3, 1, 2]` with a task that raises on the
duration-1 workload still yields 3 handles; handle 1's retrieval surfaces
the error and handle 0's retrieval returns its normal result. -/
theorem c5_errors_deferred_to_result_witness :
    (submit_batch raising_task [3, 1, 2]).length = 3 ∧
    ((submit_batch raising_task [3, 1, 2])[1]?).map Future.result =
      some (Except.error "ValueError") ∧
    ((submit_batch raising_task [3, 1, 2])[0]?).map Future.result =
      some (Except.ok "Done sleeping 3 seconds.") := by
  have h := c5_errors_deferred_to_result raising_task [3, 1, 2]
  refine ⟨h.1, ?_, ?_⟩
  · rw [h.2 1 1 rfl]
    rfl
  · rw [h.2 0 3 rfl]
    rfl

/-- Claim C6: the pool is shut down on every exit path of the dispatch
session — also when the body raises — and shutting down joins every spawned
worker; likewise `multi_loop` ends with all ten of its processes joined. -/
theorem c6_pool_closed_on_every_exit :
    (∀ (pool : Pool) (body : Pool → Except String String),
        (with_pool pool body).2.closed = true ∧
        ∀ p ∈ (with_pool pool body).2.workers, p.joined = true) ∧
    (∀ p ∈ multi_loop, p.joined = true) := by
  constructor
  · intro pool body
    have hshut : (with_pool pool body).2 = pool.shutdown := by
      cases hb : body pool <;> simp [with_pool, hb]
    rw [hshut]
    refine ⟨rfl, ?_⟩
    intro p hp
    rw [Pool.shutdown] at hp
    obtain ⟨q, _, rfl⟩ := List.mem_map.mp hp
    rfl
  · intro p hp
    simp only [multi_loop] at hp
    obtain ⟨q, _, rfl⟩ := List.mem_map.mp hp
    rfl

/-- Witness for C6: a session whose body raises still ends with the pool
closed, and the first process of `multi_loop` ends joined. -/
theorem c6_pool_closed_on_every_exit_witness :
    (with_pool (Pool.mk [Process.create (some 2)] false)
        (fun _ => Except.error ("boom" : String) : Pool → Except String String)).2.closed
        = true ∧
    (multi_loop.get ⟨0, by decide⟩).joined = true :=
  ⟨(c6_pool_closed_on_every_exit.1 (Pool.mk [Process.create (some 2)] false)
      (fun _ => Except.error "boom")).1,
   c6_pool_closed_on_every_exit.2 _ (List.get_mem multi_loop 0 (by decide))⟩

/-- Claim C7: shutting a pool down twice leaves exactly the state one
shutdown leaves — `shutdown` is idempotent. -/
theorem c7_shutdown_idempotent (pool : Pool) :
    pool.shutdown.shutdown = pool.shutdown := by
  have hjoin : Process.join ∘ Process.join = Process.join := by
    funext p
    rfl
  simp [Pool.shutdown, List.map_map, hjoin]
